import Mathlib

/-!
Verification of the speech-activity detection pipeline of
`backend/speech_detection.py` (repository Makzz1/Procturing).

The Python module is shallowly embedded: external library calls
(pydub decoding, librosa resampling and pitch estimation, noisereduce,
the Silero VAD segmenter) are abstract deterministic functions collected
in an `Env` record; fallible calls return `Except Unit` (an exception
carries no data the code inspects).  Audio samples are exact rationals.
-/

namespace Proctoring

/-- Source constant `SR = 16000` (internal sample rate, Hz). -/
def SR : ℕ := 16000

/-- Source constant `MIN_SPEECH_DURATION = 0.3` seconds, as an exact rational. -/
def MIN_SPEECH_DURATION : ℚ := 3 / 10

/-- The three container formats the code distinguishes from the MIME hint. -/
inductive Fmt
| webm
| wav
| mp3
deriving DecidableEq, Repr

/-- Python substring test `sub in s` on character lists. -/
def hasSub (sub : List Char) : List Char → Bool
| [] => sub.isEmpty
| c :: t => sub.isPrefixOf (c :: t) || hasSub sub t

/-- Format selection from the MIME hint, embedding the
`if "webm" in mime_type.lower(): ... else: format = "webm"` chain.
Python's `str.lower()` is character-wise lowercasing on the ASCII MIME
strings involved. -/
def mimeFormat (mime_type : String) : Fmt :=
  let low := mime_type.data.map Char.toLower
  if hasSub "webm".data low then Fmt.webm
  else if hasSub "wav".data low then Fmt.wav
  else if hasSub "mp3".data low then Fmt.mp3
  else Fmt.webm

/-- Result of `AudioSegment.from_file`: channel count, source frame rate,
the interleaved integer samples of `get_array_of_samples`, and
`np.iinfo(audio.array_type).max` used for normalization. -/
structure AudioSegment where
  channels : ℕ
  frame_rate : ℕ
  raw : List ℤ
  maxVal : ℤ
deriving DecidableEq, Repr

/-- The normalized float samples: `samples /= np.iinfo(audio.array_type).max`. -/
def normSamples (a : AudioSegment) : List ℚ :=
  a.raw.map (fun x => (x : ℚ) / (a.maxVal : ℚ))

/-- `samples.reshape((-1, 2)).mean(axis=1)` on an interleaved list:
pairwise arithmetic mean; `none` embeds the reshape `ValueError` on an
odd-length array. -/
def meanPairs : List ℚ → Option (List ℚ)
| [] => some []
| [_] => none
| x :: y :: t => (meanPairs t).map (fun r => ((x + y) / 2) :: r)

/-- Standard interleaving of a left and a right channel (stereo layout of
`get_array_of_samples`). -/
def interleave : List ℚ → List ℚ → List ℚ
| [], _ => []
| _ :: _, [] => []
| x :: xs, y :: ys => x :: y :: interleave xs ys

/-- The mono conversion step of `detect_speech_from_bytes`: normalize, then
`if audio.channels == 2: samples = samples.reshape((-1, 2)).mean(axis=1)`.
Any other channel count leaves the samples untouched. -/
def monoize (a : AudioSegment) : Except Unit (List ℚ) :=
  if a.channels = 2 then
    match meanPairs (normSamples a) with
    | some s => Except.ok s
    | none => Except.error ()
  else Except.ok (normSamples a)

/-- A candidate segment from `get_speech_timestamps`: `stop` embeds the
dictionary key `"end"`. -/
structure Seg where
  start : ℕ
  stop : ℕ
deriving DecidableEq, Repr

/-- The external libraries, as abstract deterministic functions.
`pyin` returns the `voiced_flag` array of `librosa.pyin`:
`Except.error` embeds an exception, `Except.ok none` a `None` array, and an
element `none` a NaN entry. -/
structure Env where
  from_file : List ℕ → Fmt → Except Unit AudioSegment
  resample : List ℚ → ℕ → List ℚ
  reduce_noise : List ℚ → Except Unit (List ℚ)
  get_speech_timestamps : List ℚ → List Seg
  pyin : List ℚ → Except Unit (Option (List (Option Bool)))

/-- `np.nanmean(voiced_flag.astype(float))`: the fraction of non-NaN frames
flagged voiced. -/
def voicingScore (flags : List (Option Bool)) : ℚ :=
  ((flags.countP (fun f => decide (f = some true)) : ℕ) : ℚ) /
    ((flags.countP (fun f => f.isSome) : ℕ) : ℚ)

/-- Embedding of `has_voicing(segment, sr)`: exceptions and degenerate
`voiced_flag` arrays yield `False`; otherwise the voiced fraction is
compared against `0.15`. -/
def has_voicing (env : Env) (segment : List ℚ) : Bool :=
  match env.pyin segment with
  | Except.error _ => false
  | Except.ok none => false
  | Except.ok (some flags) =>
    if flags.all (fun f => f.isNone) then false
    else decide (voicingScore flags > 3 / 20)

/-- The slice `wav[start:end]`. -/
def sliceWav (wav : List ℚ) (start stop : ℕ) : List ℚ :=
  (wav.drop start).take (stop - start)

/-- `dur = (end - start) / SR` in seconds. -/
def segDur (s : Seg) : ℚ := ((s.stop - s.start : ℕ) : ℚ) / (SR : ℚ)

/-- The segment loop of `detect_speech_from_bytes`: skip segments shorter
than `MIN_SPEECH_DURATION`, return `True` at the first voiced segment,
`False` when the list is exhausted. -/
def scanSegments (env : Env) (wav : List ℚ) : List Seg → Bool
| [] => false
| seg :: rest =>
  if segDur seg < MIN_SPEECH_DURATION then scanSegments env wav rest
  else if has_voicing env (sliceWav wav seg.start seg.stop) then true
  else scanSegments env wav rest

/-- The same loop, instrumented with the list of segments on which
`has_voicing` is actually invoked, in invocation order. -/
def scanTrace (env : Env) (wav : List ℚ) : List Seg → Bool × List Seg
| [] => (false, [])
| seg :: rest =>
  if segDur seg < MIN_SPEECH_DURATION then scanTrace env wav rest
  else if has_voicing env (sliceWav wav seg.start seg.stop) then (true, [seg])
  else
    let r := scanTrace env wav rest
    (r.1, seg :: r.2)

/-- A segment passes both the duration filter and the voicing verifier. -/
def accepts (env : Env) (wav : List ℚ) (seg : Seg) : Bool :=
  decide (MIN_SPEECH_DURATION ≤ segDur seg) &&
    has_voicing env (sliceWav wav seg.start seg.stop)

/-- Decode + normalize + downmix + resample: the front half of the `try`
block of `detect_speech_from_bytes`. -/
def decodeToWav (env : Env) (audio_bytes : List ℕ) (mime_type : String) :
    Except Unit (List ℚ) :=
  match env.from_file audio_bytes (mimeFormat mime_type) with
  | Except.error e => Except.error e
  | Except.ok a =>
    match monoize a with
    | Except.error e => Except.error e
    | Except.ok mono => Except.ok (env.resample mono a.frame_rate)

/-- The inner `try: wav = nr.reduce_noise(...) except: pass`. -/
def denoise (env : Env) (wav : List ℚ) : List ℚ :=
  match env.reduce_noise wav with
  | Except.ok w => w
  | Except.error _ => wav

/-- The whole `try` block of `detect_speech_from_bytes`: an `Except.error`
is an exception reaching the outer handler. -/
def detectBody (env : Env) (audio_bytes : List ℕ) (mime_type : String) :
    Except Unit Bool :=
  match decodeToWav env audio_bytes mime_type with
  | Except.error e => Except.error e
  | Except.ok wav0 =>
    let wav := denoise env wav0
    Except.ok (scanSegments env wav (env.get_speech_timestamps wav))

/-- The process-wide globals `_model` and `_utils` (their contents are
opaque to the logic the claims concern). -/
structure ModelState where
  model : Option Unit
  utils : Option Unit
deriving DecidableEq, Repr

/-- Embedding of `detect_speech_from_bytes(audio_bytes, mime_type)`:
the `None` check on the globals returns `False`, and the outer
`except Exception: return False` converts any exception to `False`. -/
def detect_speech_from_bytes (env : Env) (st : ModelState)
    (audio_bytes : List ℕ) (mime_type : String) : Bool :=
  if st.model.isNone || st.utils.isNone then false
  else
    match detectBody env audio_bytes mime_type with
    | Except.ok b => b
    | Except.error _ => false

/-- A call as a state transformer on the globals: the Python function reads
`_model`/`_utils` but never assigns them, so the state is returned
unchanged. -/
def detectCall (env : Env) (st : ModelState) (audio_bytes : List ℕ)
    (mime_type : String) : Bool × ModelState :=
  (detect_speech_from_bytes env st audio_bytes mime_type, st)

/-- Decidable equality for `Except`, used to evaluate pipeline results in
concrete witnesses. -/
instance {ε α : Type} [DecidableEq ε] [DecidableEq α] :
    DecidableEq (Except ε α) := fun x y =>
  match x, y with
  | Except.ok a, Except.ok b =>
    if h : a = b then Decidable.isTrue (by rw [h])
    else Decidable.isFalse (fun hc => h (Except.ok.inj hc))
  | Except.error e, Except.error f =>
    if h : e = f then Decidable.isTrue (by rw [h])
    else Decidable.isFalse (fun hc => h (Except.error.inj hc))
  | Except.ok _, Except.error _ =>
    Decidable.isFalse (fun hc => Except.noConfusion hc)
  | Except.error _, Except.ok _ =>
    Decidable.isFalse (fun hc => Except.noConfusion hc)

/-- A concrete environment in which every decode attempt raises (pydub's
`CouldntDecodeError` on an empty or unparseable payload), as does every
pitch-estimation call. -/
def envFail : Env :=
  ⟨fun _ _ => Except.error (),
   fun w _ => w,
   fun w => Except.ok w,
   fun _ => [],
   fun _ => Except.error ()⟩

/-- A concrete environment in which decoding succeeds with a one-sample
mono clip, noise reduction raises, the segmenter reports one segment and
pitch estimation reports a mostly-voiced flag array. -/
def envDemo : Env :=
  ⟨fun _ _ => Except.ok ⟨1, 16000, [16384], 32767⟩,
   fun w _ => w,
   fun _ => Except.error (),
   fun _ => [⟨0, 8000⟩],
   fun _ => Except.ok (some [some true, some true, some false, none])⟩

/-! ## Helper lemmas about the segment loop -/

/-- A segment below the duration threshold is never passed to `has_voicing`:
it does not occur in the instrumented trace, whatever the segment list. -/
theorem scanTrace_not_mem_of_short (env : Env) (wav : List ℚ) {seg : Seg}
    (h : segDur seg < MIN_SPEECH_DURATION) :
    ∀ l : List Seg, seg ∉ (scanTrace env wav l).2 := by
  intro l
  induction l with
  | nil => simp [scanTrace]
  | cons s t ih =>
    by_cases h1 : segDur s < MIN_SPEECH_DURATION
    · simpa [scanTrace, h1] using ih
    · by_cases h2 : has_voicing env (sliceWav wav s.start s.stop)
      · simp only [scanTrace, if_neg h1, if_pos h2]
        intro hm
        rw [List.mem_singleton] at hm
        subst hm
        exact h1 h
      · simp only [scanTrace, if_neg h1, if_neg h2]
        intro hm
        rcases List.mem_cons.mp hm with rfl | hm'
        · exact h1 h
        · exact ih hm'

/-- The loop result is unchanged if the segments below the duration
threshold are removed up front. -/
theorem scan_filter_eq (env : Env) (wav : List ℚ) :
    ∀ l : List Seg, scanSegments env wav l =
      scanSegments env wav
        (l.filter fun s => decide (MIN_SPEECH_DURATION ≤ segDur s)) := by
  intro l
  induction l with
  | nil => rfl
  | cons s t ih =>
    by_cases h1 : segDur s < MIN_SPEECH_DURATION
    · have hd : decide (MIN_SPEECH_DURATION ≤ segDur s) = false := by
        simp [not_le.mpr h1]
      simp [scanSegments, List.filter_cons, h1, hd, ih]
    · have hd : decide (MIN_SPEECH_DURATION ≤ segDur s) = true := by
        simp [not_lt.mp h1]
      by_cases h2 : has_voicing env (sliceWav wav s.start s.stop)
      · simp [scanSegments, List.filter_cons, h1, hd, h2]
      · simp [scanSegments, List.filter_cons, h1, hd, h2, ih]

/-- The loop returns `true` exactly when some segment passes both the
duration filter and the voicing verifier. -/
theorem scan_any (env : Env) (wav : List ℚ) :
    ∀ l : List Seg, scanSegments env wav l = l.any (accepts env wav) := by
  intro l
  induction l with
  | nil => rfl
  | cons s t ih =>
    by_cases h1 : segDur s < MIN_SPEECH_DURATION
    · have ha : accepts env wav s = false := by
        simp [accepts, not_le.mpr h1]
      simp [scanSegments, h1, List.any_cons, ha, ih]
    · have h1' : MIN_SPEECH_DURATION ≤ segDur s := not_lt.mp h1
      by_cases h2 : has_voicing env (sliceWav wav s.start s.stop)
      · have ha : accepts env wav s = true := by simp [accepts, h1', h2]
        simp [scanSegments, h1, h2, List.any_cons, ha]
      · have ha : accepts env wav s = false := by simp [accepts, h2]
        simp [scanSegments, h1, h2, List.any_cons, ha, ih]

/-- Scanning past a prefix of rejected segments: the result is that of the
rest, and the trace is the concatenation of the traces. -/
theorem scanTrace_append_of_none (env : Env) (wav : List ℚ) (rest : List Seg) :
    ∀ pre : List Seg, (∀ s ∈ pre, accepts env wav s = false) →
      scanTrace env wav (pre ++ rest) =
        ((scanTrace env wav rest).1,
          (scanTrace env wav pre).2 ++ (scanTrace env wav rest).2) := by
  intro pre
  induction pre with
  | nil => intro _; simp [scanTrace]
  | cons s pre' ih =>
    intro h
    have hs := h s (List.mem_cons_self s pre')
    have htail : ∀ x ∈ pre', accepts env wav x = false := fun x hx =>
      h x (List.mem_cons_of_mem s hx)
    by_cases h1 : segDur s < MIN_SPEECH_DURATION
    · simpa [scanTrace, h1] using ih htail
    · have h1' : MIN_SPEECH_DURATION ≤ segDur s := not_lt.mp h1
      have h2 : has_voicing env (sliceWav wav s.start s.stop) = false := by
        by_contra hc
        rw [Bool.not_eq_false] at hc
        rw [accepts] at hs
        simp [h1', hc] at hs
      simp [scanTrace, h1, h2, ih htail]

/-- An admitted segment at the head of the list short-circuits: the loop
returns `true` and the trace is exactly that one segment; the tail is
never examined. -/
theorem scanTrace_cons_accept (env : Env) (wav : List ℚ) (s : Seg)
    (post : List Seg) (h : accepts env wav s = true) :
    scanTrace env wav (s :: post) = (true, [s]) := by
  rw [accepts, Bool.and_eq_true] at h
  have hd : MIN_SPEECH_DURATION ≤ segDur s := of_decide_eq_true h.1
  simp [scanTrace, not_lt.mpr hd, h.2]

/-- Pairwise averaging of an interleaved stereo stream is the samplewise
arithmetic mean of the two channels. -/
theorem meanPairs_interleave :
    ∀ L R : List ℚ, meanPairs (interleave L R) =
      some (List.zipWith (fun x y => (x + y) / 2) L R)
  | [], _ => rfl
  | _ :: _, [] => rfl
  | x :: xs, y :: ys => by
    simp [interleave, meanPairs, meanPairs_interleave xs ys, List.zipWith]

/-! ## Claims -/

/-- C1 (counterexample): with the model state unavailable, a detection call
returns the boolean `false`; it does not fail with a distinct
`ModelUnavailable` condition, contrary to the claim. -/
theorem C1_counterexample :
    (ModelState.mk none none).model = none ∧
      detect_speech_from_bytes envDemo (ModelState.mk none none) []
        "audio/webm" = false :=
  ⟨rfl, rfl⟩

/-- C1 (amended): if the pretrained VAD model has not been successfully
initialized (either global is `None`), every call to
`detect_speech_from_bytes` returns the boolean `false`; no distinct
error condition exists at this interface. -/
theorem C1_model_unavailable (env : Env) (st : ModelState)
    (audio_bytes : List ℕ) (mime_type : String)
    (h : st.model = none ∨ st.utils = none) :
    detect_speech_from_bytes env st audio_bytes mime_type = false := by
  rcases h with h | h <;> simp [detect_speech_from_bytes, h]

/-- C1 witness: `C1_model_unavailable` at a concrete uninitialized state. -/
theorem C1_model_unavailable_witness :
    detect_speech_from_bytes envDemo (ModelState.mk none (some ())) [1, 2]
      "audio/wav" = false :=
  C1_model_unavailable envDemo (ModelState.mk none (some ())) [1, 2]
    "audio/wav" (Or.inl rfl)

/-- C2 (code evaluated at the failing input): on a zero-length payload the
decoder raises, the exception reaches the outer handler of
`detect_speech_from_bytes`, and the call returns the default `false`
instead of surfacing a `DecodeError`. -/
theorem C2_decode_failure_swallowed :
    detectBody envFail [] "audio/wav" = Except.error () ∧
      detect_speech_from_bytes envFail (ModelState.mk (some ()) (some ()))
        [] "audio/wav" = false :=
  ⟨rfl, rfl⟩

/-- C3: a candidate segment strictly shorter than the 0.3 s minimum
duration is never handed to the voicing verifier (it is absent from the
instrumented trace), and the loop result equals the result on the list
with all such segments removed, so a short segment never contributes to
a positive detection. -/
theorem C3_duration_filter (env : Env) (wav : List ℚ) (segs : List Seg)
    (seg : Seg) (_hmem : seg ∈ segs)
    (hshort : segDur seg < MIN_SPEECH_DURATION) :
    seg ∉ (scanTrace env wav segs).2 ∧
      scanSegments env wav segs =
        scanSegments env wav
          (segs.filter fun s => decide (MIN_SPEECH_DURATION ≤ segDur s)) :=
  ⟨scanTrace_not_mem_of_short env wav hshort segs, scan_filter_eq env wav segs⟩

/-- C3 witness: `C3_duration_filter` at a concrete zero-length segment. -/
theorem C3_duration_filter_witness :
    (Seg.mk 5 5) ∉ (scanTrace envDemo [] [Seg.mk 5 5]).2 ∧
      scanSegments envDemo [] [Seg.mk 5 5] =
        scanSegments envDemo []
          (([Seg.mk 5 5]).filter fun s =>
            decide (MIN_SPEECH_DURATION ≤ segDur s)) :=
  C3_duration_filter envDemo [] [Seg.mk 5 5] (Seg.mk 5 5) (by simp)
    (by norm_num [segDur, MIN_SPEECH_DURATION, SR])

/-- C4: for a segment whose pitch estimation succeeds with a usable
`voiced_flag` array, the voicing score is a scalar in [0, 1] equal to the
fraction of analysis frames classified as voiced, and the verifier admits
the segment exactly when that score strictly exceeds 0.15. -/
theorem C4_voicing_score (env : Env) (segment : List ℚ)
    (flags : List (Option Bool))
    (hp : env.pyin segment = Except.ok (some flags))
    (hvalid : flags.all (fun f => f.isNone) = false) :
    0 ≤ voicingScore flags ∧ voicingScore flags ≤ 1 ∧
      (has_voicing env segment = true ↔ voicingScore flags > 3 / 20) := by
  have hle : flags.countP (fun f => decide (f = some true)) ≤
      flags.countP (fun f => f.isSome) := by
    apply List.countP_mono_left
    intro a _ h
    simp_all
  refine ⟨?_, ?_, ?_⟩
  · rw [voicingScore]
    positivity
  · rw [voicingScore]
    exact div_le_one_of_le₀ (by exact_mod_cast hle) (by positivity)
  · simp [has_voicing, hp, hvalid]

/-- C4 witness: `C4_voicing_score` on the concrete flag array of `envDemo`
(two voiced frames, one unvoiced frame, one NaN frame). -/
theorem C4_voicing_score_witness :
    0 ≤ voicingScore [some true, some true, some false, none] ∧
      voicingScore [some true, some true, some false, none] ≤ 1 ∧
      (has_voicing envDemo [] = true ↔
        voicingScore [some true, some true, some false, none] > 3 / 20) :=
  C4_voicing_score envDemo [] [some true, some true, some false, none] rfl
    (by decide)

/-- C5: any internal failure of pitch estimation on a segment — an
exception, a `None` voiced-flag array, or an all-NaN one — makes the
voicing verifier return `false` for that segment instead of admitting it
or propagating the failure. -/
theorem C5_fail_closed (env : Env) (segment : List ℚ)
    (h : env.pyin segment = Except.error () ∨
      env.pyin segment = Except.ok none ∨
      ∃ flags, env.pyin segment = Except.ok (some flags) ∧
        flags.all (fun f => f.isNone) = true) :
    has_voicing env segment = false := by
  rcases h with h | h | ⟨flags, hp, hall⟩
  · simp [has_voicing, h]
  · simp [has_voicing, h]
  · simp [has_voicing, hp, hall]

/-- C5 witness: `C5_fail_closed` in an environment whose pitch estimator
raises on every segment. -/
theorem C5_fail_closed_witness : has_voicing envFail [1, 0, 1] = false :=
  C5_fail_closed envFail [1, 0, 1] (Or.inl rfl)

/-- C6: if noise suppression fails on a decoded waveform, the failure is
caught locally and the waveform passes through unchanged, and the whole
`try` body still succeeds, running the segmenter and the segment loop on
the unmodified waveform. -/
theorem C6_noise_suppression_best_effort (env : Env) (wav : List ℚ)
    (audio_bytes : List ℕ) (mime_type : String)
    (hnr : env.reduce_noise wav = Except.error ())
    (hdec : decodeToWav env audio_bytes mime_type = Except.ok wav) :
    denoise env wav = wav ∧
      detectBody env audio_bytes mime_type =
        Except.ok (scanSegments env wav (env.get_speech_timestamps wav)) := by
  have hd : denoise env wav = wav := by simp [denoise, hnr]
  exact ⟨hd, by simp [detectBody, hdec, hd]⟩

/-- C6 witness: `C6_noise_suppression_best_effort` in `envDemo`, whose
noise suppressor raises on every input. -/
theorem C6_noise_suppression_witness :
    denoise envDemo (normSamples (AudioSegment.mk 1 16000 [16384] 32767)) =
      normSamples (AudioSegment.mk 1 16000 [16384] 32767) ∧
      detectBody envDemo [] "audio/webm" =
        Except.ok (scanSegments envDemo
          (normSamples (AudioSegment.mk 1 16000 [16384] 32767))
          (envDemo.get_speech_timestamps
            (normSamples (AudioSegment.mk 1 16000 [16384] 32767)))) :=
  C6_noise_suppression_best_effort envDemo
    (normSamples (AudioSegment.mk 1 16000 [16384] 32767)) [] "audio/webm"
    rfl rfl

/-- C7: the loop examines candidate segments in order; when every segment
of a prefix is rejected and the next segment passes both filters, the
result is `true` and the voicing verifier runs on no segment after the
admitted one; in general the result is `true` exactly when some candidate
segment is admitted. -/
theorem C7_short_circuit (env : Env) (wav : List ℚ)
    (pre post segs : List Seg) (seg : Seg)
    (hpre : ∀ s ∈ pre, accepts env wav s = false)
    (hseg : accepts env wav seg = true) :
    scanSegments env wav (pre ++ seg :: post) = true ∧
      (scanTrace env wav (pre ++ seg :: post)).2 =
        (scanTrace env wav pre).2 ++ [seg] ∧
      scanSegments env wav segs = segs.any (accepts env wav) := by
  refine ⟨?_, ?_, scan_any env wav segs⟩
  · rw [scan_any]
    simp [List.any_append, hseg]
  · rw [scanTrace_append_of_none env wav (seg :: post) pre hpre]
    simp [scanTrace_cons_accept env wav seg post hseg]

/-- C7 witness: `C7_short_circuit` with a rejected zero-length leading
segment, an admitted 0.5 s segment and one trailing segment that is never
analyzed. -/
theorem C7_short_circuit_witness :
    scanSegments envDemo [] ([Seg.mk 5 5] ++ Seg.mk 0 8000 :: [Seg.mk 0 9000]) =
      true ∧
      (scanTrace envDemo [] ([Seg.mk 5 5] ++ Seg.mk 0 8000 :: [Seg.mk 0 9000])).2 =
        (scanTrace envDemo [] [Seg.mk 5 5]).2 ++ [Seg.mk 0 8000] ∧
      scanSegments envDemo [] [] = List.any [] (accepts envDemo []) :=
  C7_short_circuit envDemo [] [Seg.mk 5 5] [Seg.mk 0 9000] [] (Seg.mk 0 8000)
    (by
      intro s hs
      rw [List.mem_singleton] at hs
      subst hs
      norm_num [accepts, segDur, SR, MIN_SPEECH_DURATION])
    (by
      have hv : has_voicing envDemo (sliceWav [] 0 8000) = true := by
        have hc1 : List.countP (fun f => decide (f = some true))
            [some true, some true, some false, (none : Option Bool)] = 2 := by
          decide
        have hc2 : List.countP (fun f => Option.isSome f)
            [some true, some true, some false, (none : Option Bool)] = 3 := by
          decide
        simp [has_voicing, envDemo, voicingScore, hc1, hc2]
        norm_num
      norm_num [accepts, segDur, SR, MIN_SPEECH_DURATION, hv])

/-- C8 (counterexample): a successfully decoded three-channel input is not
downmixed at all — the interleaved samples pass through unchanged, three
samples long, rather than the one-frame arithmetic mean across the three
channels. -/
theorem C8_counterexample :
    (AudioSegment.mk 3 16000 [32767, 0, 0] 32767).channels = 3 ∧
      monoize (AudioSegment.mk 3 16000 [32767, 0, 0] 32767) =
        Except.ok (normSamples (AudioSegment.mk 3 16000 [32767, 0, 0] 32767)) ∧
      normSamples (AudioSegment.mk 3 16000 [32767, 0, 0] 32767) ≠
        [((32767 : ℚ) / 32767 + 0 / 32767 + 0 / 32767) / 3] := by
  refine ⟨rfl, rfl, fun h => ?_⟩
  have hlen := congrArg List.length h
  simp [normSamples] at hlen

/-- C8 (amended): an input with exactly two channels is downmixed to mono
by the samplewise arithmetic mean of the two channels; an input with any
other channel count passes through without downmixing. -/
theorem C8_downmix (a b : AudioSegment) (L R : List ℚ)
    (h2 : a.channels = 2) (hinter : normSamples a = interleave L R)
    (_hlen : L.length = R.length) (hb : b.channels ≠ 2) :
    monoize a = Except.ok (List.zipWith (fun x y => (x + y) / 2) L R) ∧
      monoize b = Except.ok (normSamples b) := by
  constructor
  · rw [monoize, if_pos h2, hinter, meanPairs_interleave]
  · rw [monoize, if_neg hb]

/-- C8 witness: `C8_downmix` on a concrete interleaved stereo clip and a
concrete three-channel clip. -/
theorem C8_downmix_witness :
    monoize (AudioSegment.mk 2 44100 [32767, 0, 16384, 16384] 32767) =
      Except.ok (List.zipWith (fun x y => (x + y) / 2)
        (normSamples (AudioSegment.mk 1 44100 [32767, 16384] 32767))
        (normSamples (AudioSegment.mk 1 44100 [0, 16384] 32767))) ∧
      monoize (AudioSegment.mk 3 8000 [1, 2, 3] 32767) =
        Except.ok (normSamples (AudioSegment.mk 3 8000 [1, 2, 3] 32767)) :=
  C8_downmix (AudioSegment.mk 2 44100 [32767, 0, 16384, 16384] 32767)
    (AudioSegment.mk 3 8000 [1, 2, 3] 32767)
    (normSamples (AudioSegment.mk 1 44100 [32767, 16384] 32767))
    (normSamples (AudioSegment.mk 1 44100 [0, 16384] 32767))
    rfl rfl rfl (by decide)

/-- C9: a detection call is a deterministic, state-preserving function of
the model state and the input: the globals are unchanged, and re-running
the call on byte-identical input under the resulting state yields the
identical decision. -/
theorem C9_deterministic (env : Env) (st : ModelState)
    (audio_bytes : List ℕ) (mime_type : String) :
    (detectCall env st audio_bytes mime_type).2 = st ∧
      (detectCall env (detectCall env st audio_bytes mime_type).2
          audio_bytes mime_type).1 =
        (detectCall env st audio_bytes mime_type).1 :=
  ⟨rfl, rfl⟩

/-- C10: the public entry point is total at its interface: an unrecognized
MIME string falls back to the webm default, and any exception escaping the
`try` body is converted into the return value `false` whatever the model
state; the return type carries no other outcome. -/
theorem C10_interface_total (env : Env) (st : ModelState)
    (audio_bytes : List ℕ) (mime_type : String)
    (herr : detectBody env audio_bytes mime_type = Except.error ())
    (hw : hasSub "webm".data (mime_type.data.map Char.toLower) = false)
    (hv : hasSub "wav".data (mime_type.data.map Char.toLower) = false)
    (h3 : hasSub "mp3".data (mime_type.data.map Char.toLower) = false) :
    mimeFormat mime_type = Fmt.webm ∧
      detect_speech_from_bytes env st audio_bytes mime_type = false := by
  constructor
  · simp [mimeFormat, hw, hv, h3]
  · cases hm : (st.model.isNone || st.utils.isNone) <;>
      simp [detect_speech_from_bytes, hm, herr]

/-- C10 witness: `C10_interface_total` on the unrecognized MIME type
`audio/ogg` in an environment whose decoder raises. -/
theorem C10_interface_total_witness :
    mimeFormat "audio/ogg" = Fmt.webm ∧
      detect_speech_from_bytes envFail (ModelState.mk (some ()) (some ()))
        [] "audio/ogg" = false :=
  C10_interface_total envFail (ModelState.mk (some ()) (some ())) []
    "audio/ogg" rfl (by decide) (by decide) (by decide)

end Proctoring
